import Mathlib

/-!
Verification development for the single-page web-scraper backend
(`scraper.py`).  The core pipeline (`is_valid_url`, `clean_text`, and
the extraction logic of `scrape_website`) is shallowly embedded below.

External dependencies of the source are embedded as follows.

* CPython's `urllib.parse` (`urlparse` / `urljoin`): the scheme/netloc/
  path/query/fragment splitting and the base+reference joining algorithm
  of `urllib/parse.py` (CPython 3.11 line) are reproduced on `List Char`.
  `urlsplitRaw` performs the total part of the split; `urlsplitE` adds
  the `ValueError` CPython raises for a bracket-mismatched netloc
  ("Invalid IPv6 URL"), which is the exception branch exercised by
  `is_valid_url`'s `try/except`.  The host-content and non-ASCII netloc
  checks of CPython, and the legacy `;params` component, are not
  modelled; the URLs in this development contain neither.  Inside the
  extraction loops the total `urlsplitRaw` is used (on those bracket
  inputs the Python process would abort the whole scrape with an
  exception rather than produce a document).
* `re.sub(r"\s+", " ", text)` and `str.strip()`: the whitespace class is
  modelled by `isPySpace`, covering the ASCII and Latin-1 whitespace
  characters; the remaining Unicode space characters behave identically
  and are omitted.
* BeautifulSoup: the parse tree is modelled by `Soup`, which records
  exactly the query results `scrape_website` asks of the tree
  (`find_all` of each tag in document order, with raw `get_text`
  strings and the attributes read by the code).  Table header lookup
  `table.find_all('th')` is modelled as the concatenation of the `th`
  cells of the table's rows (document order for tables whose `th` cells
  sit inside `tr` elements, the HTML-valid shape).
* `requests`: a fetch outcome is either a transport-level exception or
  a response; `response.raise_for_status()` raises exactly for status
  codes in [400, 600).  The wall-clock `scrape_timestamp` field is
  outside the model.
-/

namespace Scraper

/-- Whitespace class of Python's `\s` (for `str` patterns) and `str.strip()`,
restricted to the ASCII / Latin-1 range actually distinguishable here. -/
def isPySpace (c : Char) : Bool :=
  c = ' ' || c = '\t' || c = '\n' || c = '\r' || c = '\x0b' || c = '\x0c' ||
  c = '\x1c' || c = '\x1d' || c = '\x1e' || c = '\x1f' || c = '\x85' || c = '\xa0'

/-- Embeds `re.sub(r"\s+", " ", text)`: every maximal run of whitespace is
replaced by a single space.  The flag records whether we are inside a run
whose single replacement space has already been emitted. -/
def collapseAux : Bool → List Char → List Char
  | _, [] => []
  | inRun, c :: cs =>
    if isPySpace c then
      if inRun then collapseAux true cs else ' ' :: collapseAux true cs
    else c :: collapseAux false cs

def collapseWs (l : List Char) : List Char := collapseAux false l

/-- Trailing-whitespace removal (the right half of `str.strip()`). -/
def dropTrailingWs (l : List Char) : List Char :=
  (l.reverse.dropWhile isPySpace).reverse

/-- Embeds `str.strip()` as applied after the whitespace collapse. -/
def pyStrip (l : List Char) : List Char :=
  dropTrailingWs (l.dropWhile isPySpace)

/-- Embeds `clean_text` of `scraper.py`: empty (falsy) input is returned as
`""`; otherwise whitespace runs are collapsed to single spaces and the
result is stripped. -/
def clean_text (s : String) : String :=
  if s = "" then "" else ⟨pyStrip (collapseWs s.data)⟩

/-- Every whitespace character occurring in `l` is the plain space. -/
def SpaceOk (l : List Char) : Prop := ∀ c ∈ l, isPySpace c = true → c = ' '

/-- No two adjacent characters of `l` are both whitespace. -/
def NoWsRun (l : List Char) : Prop :=
  List.Chain' (fun a b => ¬(isPySpace a = true ∧ isPySpace b = true)) l

/-- Normal form reached by the whitespace collapse: all whitespace is the
plain space and no run of it is longer than one character. -/
def GoodWs (l : List Char) : Prop := SpaceOk l ∧ NoWsRun l

/-- Characters admitted after the first position of a URL scheme
(CPython `scheme_chars`). -/
def schemeChar (c : Char) : Bool :=
  c.isAlpha || c.isDigit || c = '+' || c = '-' || c = '.'

/-- WHATWG C0-control-or-space class stripped from both ends of a URL by
CPython's `urlsplit`. -/
def isC0OrSpace (c : Char) : Bool := c.toNat ≤ 0x20

def stripBoth (p : Char → Bool) (l : List Char) : List Char :=
  ((l.dropWhile p).reverse.dropWhile p).reverse

/-- Scheme detection of CPython `urlsplit`: a scheme is split off when a
`':'` occurs at index `> 0`, the first character is an ASCII letter and
every character before the colon is a scheme character; otherwise the
default scheme is kept and the input is untouched. -/
def splitScheme (dscheme : String) (l : List Char) : String × List Char :=
  let pre := l.takeWhile (fun c => c ≠ ':')
  if pre.length ≠ l.length && 0 < pre.length &&
      (match pre with | c :: _ => c.isAlpha | [] => false) &&
      pre.all schemeChar then
    (⟨pre.map Char.toLower⟩, l.drop (pre.length + 1))
  else (dscheme, l)

/-- Netloc extraction of CPython `urlsplit`: after `"//"`, up to the first
`'/'`, `'?'` or `'#'`. -/
def splitNetloc (l : List Char) : String × List Char :=
  match l with
  | '/' :: '/' :: rest =>
    let nl := rest.takeWhile (fun c => c ≠ '/' && c ≠ '?' && c ≠ '#')
    (⟨nl⟩, rest.drop nl.length)
  | _ => ("", l)

/-- Splits at the first occurrence of `sep` (CPython `str.split(sep, 1)`),
keeping everything when `sep` is absent. -/
def splitOnFirstChar (sep : Char) (l : List Char) : List Char × List Char :=
  if l.contains sep then
    (l.takeWhile (fun c => c ≠ sep), (l.dropWhile (fun c => c ≠ sep)).tail)
  else (l, [])

structure SplitResult where
  scheme : String
  netloc : String
  path : String
  query : String
  fragment : String
deriving DecidableEq

/-- Total part of CPython `urlsplit(url, dscheme)` (with
`allow_fragments=True`): sanitisation, scheme, netloc, fragment and query
extraction. -/
def urlsplitRaw (urlStr dscheme : String) : SplitResult :=
  let l := stripBoth isC0OrSpace urlStr.data
  let l := l.filter (fun c => c ≠ '\t' && c ≠ '\r' && c ≠ '\n')
  let p1 := splitScheme dscheme l
  let p2 := splitNetloc p1.2
  let p3 := splitOnFirstChar '#' p2.2
  let p4 := splitOnFirstChar '?' p3.1
  { scheme := p1.1, netloc := p2.1, path := ⟨p4.1⟩, query := ⟨p4.2⟩,
    fragment := ⟨p3.2⟩ }

/-- Bracket-mismatch condition on which CPython `urlsplit` raises
`ValueError("Invalid IPv6 URL")`. -/
def invalidIPv6 (netloc : String) : Bool :=
  (netloc.data.contains '[' && !netloc.data.contains ']') ||
  (netloc.data.contains ']' && !netloc.data.contains '[')

/-- CPython `urlparse` as used by `is_valid_url`: the split result, or the
`ValueError` for a bracket-mismatched netloc. -/
def urlsplitE (urlStr dscheme : String) : Except String SplitResult :=
  let r := urlsplitRaw urlStr dscheme
  if invalidIPv6 r.netloc then Except.error "Invalid IPv6 URL" else Except.ok r

/-- Embeds `is_valid_url` of `scraper.py`: `urlparse` the candidate and
require both a truthy (non-empty) scheme and netloc; any parse exception
yields `False`. -/
def is_valid_url (url : String) : Bool :=
  match urlsplitE url "" with
  | Except.ok r => !(r.scheme = "") && !(r.netloc = "")
  | Except.error _ => false

/-- CPython `urllib.parse.uses_relative`. -/
def uses_relative : List String :=
  ["", "ftp", "http", "gopher", "nntp", "imap", "wais", "file", "https",
   "shttp", "mms", "prospero", "rtsp", "rtspu", "sftp", "svn", "svn+ssh",
   "ws", "wss"]

/-- CPython `urllib.parse.uses_netloc`. -/
def uses_netloc : List String :=
  ["", "ftp", "http", "gopher", "nntp", "telnet", "imap", "wais", "file",
   "mms", "https", "shttp", "snews", "prospero", "rtsp", "rtspu", "rsync",
   "svn", "svn+ssh", "sftp", "nfs", "git", "git+ssh", "ws", "wss",
   "itms-services"]

/-- CPython `urlunsplit`. -/
def urlunsplit (r : SplitResult) : String :=
  let url := r.path
  let url :=
    if !(r.netloc = "") || (!(url = "") && url.data.take 2 = ['/', '/']) then
      "//" ++ r.netloc ++
        (if !(url = "") && url.data.take 1 ≠ ['/'] then "/" ++ url else url)
    else url
  let url := if !(r.scheme = "") then r.scheme ++ ":" ++ url else url
  let url := if !(r.query = "") then url ++ "?" ++ r.query else url
  if !(r.fragment = "") then url ++ "#" ++ r.fragment else url

/-- Python `str.split(sep)` for a one-character separator, on `List Char`. -/
def splitOnChar (sep : Char) : List Char → List (List Char)
  | [] => [[]]
  | c :: cs =>
    let r := splitOnChar sep cs
    if c = sep then [] :: r
    else
      match r with
      | [] => [[c]]
      | h :: t => (c :: h) :: t

/-- Python `'/'.join(parts)` on `List Char` segments. -/
def joinSlash : List (List Char) → List Char
  | [] => []
  | [s] => s
  | s :: rest => s ++ '/' :: joinSlash rest

/-- In-place filtering `segments[1:-1] = filter(None, segments[1:-1])` of
CPython `urljoin`: empty segments are removed from every position except
the first and the last. -/
def filterMiddle (segs : List (List Char)) : List (List Char) :=
  match segs with
  | [] => []
  | [a] => [a]
  | a :: rest =>
    match rest.getLast? with
    | none => [a]
    | some lastSeg => a :: ((rest.dropLast.filter (fun s => s ≠ [])) ++ [lastSeg])

/-- Dot-segment resolution loop of CPython `urljoin` (`'..'` pops when
possible, `'.'` is skipped, anything else is appended). -/
def resolveSegments (segs : List (List Char)) : List (List Char) :=
  segs.foldl
    (fun acc seg =>
      if seg = ['.', '.'] then acc.dropLast
      else if seg = ['.'] then acc
      else acc ++ [seg]) []

/-- CPython `urljoin(base, url)`: standard base+reference resolution as
implemented in `urllib/parse.py` (the `;params` component is folded into
the path). -/
def urljoin (base urlStr : String) : String :=
  if base = "" then urlStr
  else if urlStr = "" then base
  else
    let b := urlsplitRaw base ""
    let r := urlsplitRaw urlStr b.scheme
    if r.scheme ≠ b.scheme || !(uses_relative.contains r.scheme) then urlStr
    else if uses_netloc.contains r.scheme && !(r.netloc = "") then
      urlunsplit { scheme := r.scheme, netloc := r.netloc, path := r.path,
                   query := r.query, fragment := r.fragment }
    else
      let netloc :=
        if uses_netloc.contains r.scheme then
          (if !(r.netloc = "") then r.netloc else b.netloc)
        else r.netloc
      if r.path = "" then
        let q := if r.query = "" then b.query else r.query
        urlunsplit { scheme := r.scheme, netloc := netloc, path := b.path,
                     query := q, fragment := r.fragment }
      else
        let baseParts := splitOnChar '/' b.path.data
        let baseParts :=
          match baseParts.getLast? with
          | some s => if s ≠ [] then baseParts.dropLast else baseParts
          | none => baseParts
        let segments :=
          if r.path.data.take 1 = ['/'] then splitOnChar '/' r.path.data
          else filterMiddle (baseParts ++ splitOnChar '/' r.path.data)
        let resolved := resolveSegments segments
        let resolved :=
          match segments.getLast? with
          | some s => if s = ['.'] || s = ['.', '.'] then resolved ++ [([] : List Char)] else resolved
          | none => resolved
        let joined := joinSlash resolved
        let joinedStr : String := if joined = [] then "/" else ⟨joined⟩
        urlunsplit { scheme := r.scheme, netloc := netloc, path := joinedStr,
                     query := r.query, fragment := r.fragment }

/-- The `urlparse(u).netloc` projection used for the `is_external` flag. -/
def netlocOf (s : String) : String := (urlsplitRaw s "").netloc

inductive CellTag
  | td
  | th
deriving DecidableEq

/-- A `td` or `th` cell with its raw `get_text()` content. -/
structure Cell where
  tag : CellTag
  text : String
deriving DecidableEq

/-- A `table` element: its `tr` elements in document order, each with its
`td`/`th` cells in order. -/
structure TableElem where
  rows : List (List Cell)
deriving DecidableEq

/-- An `a` element carrying an `href` attribute (`find_all('a', href=True)`),
with its raw `get_text()`. -/
structure Anchor where
  href : String
  text : String
deriving DecidableEq

/-- An `img` element carrying a `src` attribute (`find_all('img', src=True)`);
`alt` and `title` attributes may be absent. -/
structure ImgElem where
  src : String
  alt : Option String
  title : Option String
deriving DecidableEq

/-- The BeautifulSoup parse tree, recorded as the query results
`scrape_website` reads from it: `soup.title.string` (when a `title` tag
exists), the `get_text()` of every `h1`..`h6` and `p` in document order,
the attributed `a`/`img` elements, the `table` elements, and the
`content` attribute of the first `meta` tag with `name=description` /
`name=keywords` (outer `Option`: tag presence; inner: attribute
presence). -/
structure Soup where
  title : Option String
  h1 : List String
  h2 : List String
  h3 : List String
  h4 : List String
  h5 : List String
  h6 : List String
  ps : List String
  anchors : List Anchor
  imgs : List ImgElem
  tableElems : List TableElem
  metaDescription : Option (Option String)
  metaKeywords : Option (Option String)
deriving DecidableEq

/-- An HTTP response as consumed by `scrape_website`: status code, the
`content-type` header (defaulted to `""` by the code), the byte length of
the body, and the parse of the body. -/
structure HttpResponse where
  status_code : Nat
  content_type : String
  content_length : Nat
  soup : Soup
deriving DecidableEq

structure LinkEntry where
  text : String
  url : String
  is_external : Bool
deriving DecidableEq

structure ImageEntry where
  src : String
  alt : String
  title : String
deriving DecidableEq

structure TableEntry where
  headers : List String
  rows : List (List String)
deriving DecidableEq

structure Headings where
  h1 : List String
  h2 : List String
  h3 : List String
  h4 : List String
  h5 : List String
  h6 : List String
deriving DecidableEq

structure Statistics where
  total_headings : Nat
  total_paragraphs : Nat
  total_links : Nat
  total_images : Nat
  total_tables : Nat
  external_links : Nat
deriving DecidableEq

/-- The `metadata` block (the wall-clock `scrape_timestamp` is outside the
model). -/
structure Metadata where
  url : String
  title : String
  description : String
  keywords : String
  status_code : Nat
  content_type : String
  content_length : Nat
deriving DecidableEq

structure ScrapedData where
  metadata : Metadata
  headings : Headings
  paragraphs : List String
  links : List LinkEntry
  images : List ImageEntry
  tables : List TableEntry
  statistics : Statistics
deriving DecidableEq

/-- The link record built in the body of the anchor loop of
`scrape_website` (text placeholder, resolved URL, `is_external`). -/
def mkLinkEntry (url : String) (a : Anchor) : LinkEntry :=
  let text := clean_text a.text
  let full_url := urljoin url a.href
  { text := if text = "" then "[No Text]" else text
    url := full_url
    is_external := netlocOf full_url != netlocOf url }

/-- One iteration of the anchor loop: the entry is kept only when the
resolved URL passes `is_valid_url`. -/
def extractLink (url : String) (a : Anchor) : Option LinkEntry :=
  if is_valid_url (urljoin url a.href) then some (mkLinkEntry url a) else none

/-- The image record built in the body of the image loop of
`scrape_website` (resolved src, `alt` with placeholder, raw `title`). -/
def mkImageEntry (url : String) (im : ImgElem) : ImageEntry :=
  { src := urljoin url im.src, alt := clean_text (im.alt.getD "No alt text"),
    title := im.title.getD "" }

/-- One iteration of the image loop: the entry is kept only when the
resolved URL passes `is_valid_url`. -/
def extractImage (url : String) (im : ImgElem) : Option ImageEntry :=
  if is_valid_url (urljoin url im.src) then some (mkImageEntry url im) else none

/-- The `headers` list of the table loop of `scrape_website`: the cleaned
text of every `th` found in the table (`table.find_all('th')`). -/
def tableHeaders (t : TableElem) : List String :=
  (t.rows.flatMap (fun row => row.filter (fun c => c.tag = CellTag.th))).map
    (fun c => clean_text c.text)

/-- The `table_data` list of the table loop: per `tr`, the cleaned texts
of its `td`/`th` cells, dropping rows with zero cells. -/
def tableData (t : TableElem) : List (List String) :=
  (t.rows.map (fun row => row.map (fun c => clean_text c.text))).filter
    (fun rd => rd ≠ [])

/-- One iteration of the table loop of `scrape_website`: a table with
empty `table_data` produces no entry. -/
def extractTable (t : TableElem) : Option TableEntry :=
  if tableData t ≠ [] then
    some { headers := tableHeaders t, rows := tableData t }
  else none

/-- The `metadata` block of `scrape_website`: title falls back to
`"No Title"`, missing meta tags or `content` attributes to `""`; all three
text fields pass through `clean_text`. -/
def extractMetadata (url : String) (r : HttpResponse) : Metadata :=
  let page_title := match r.soup.title with | some t => t | none => "No Title"
  let meta_desc :=
    match r.soup.metaDescription with | some c => c.getD "" | none => ""
  let meta_keywords :=
    match r.soup.metaKeywords with | some c => c.getD "" | none => ""
  { url := url
    title := clean_text page_title
    description := clean_text meta_desc
    keywords := clean_text meta_keywords
    status_code := r.status_code
    content_type := r.content_type
    content_length := r.content_length }

/-- The extraction and aggregation body of `scrape_website` (lines 67-186
of `scraper.py`), run on a successfully fetched response. -/
def extract (url : String) (r : HttpResponse) : ScrapedData :=
  let soup := r.soup
  let headings : Headings :=
    { h1 := soup.h1.map clean_text, h2 := soup.h2.map clean_text
      h3 := soup.h3.map clean_text, h4 := soup.h4.map clean_text
      h5 := soup.h5.map clean_text, h6 := soup.h6.map clean_text }
  let paragraphs := (soup.ps.take 50).map clean_text
  let links := (soup.anchors.take 100).filterMap (extractLink url)
  let images := (soup.imgs.take 50).filterMap (extractImage url)
  let tables := (soup.tableElems.take 10).filterMap extractTable
  { metadata := extractMetadata url r
    headings := headings
    paragraphs := paragraphs
    links := links
    images := images
    tables := tables
    statistics :=
      { total_headings :=
          headings.h1.length + headings.h2.length + headings.h3.length +
          headings.h4.length + headings.h5.length + headings.h6.length
        total_paragraphs := paragraphs.length
        total_links := links.length
        total_images := images.length
        total_tables := tables.length
        external_links := (links.filter (fun l => l.is_external)).length } }

/-- Specification-side headers, written from the spec's words: the
normalized texts of all `th` cells of the table in document order. -/
def specTableHeaders (t : TableElem) : List String :=
  ((t.rows.flatMap id).filter (fun c => c.tag = CellTag.th)).map
    (fun c => clean_text c.text)

/-- Specification-side rows: the per-`tr` sequences of normalized
`td`/`th` cell texts, with zero-cell rows dropped. -/
def specTableRows (t : TableElem) : List (List String) :=
  (t.rows.map (fun row => row.map (fun c => clean_text c.text))).filter
    (fun rd => rd ≠ [])

/-- Specification-side table shaping, written from the spec's words for
comparison with `extractTable`: a table whose row list is empty after
dropping yields no entry. -/
def tableSpec (t : TableElem) : Option TableEntry :=
  if specTableRows t = [] then none
  else some { headers := specTableHeaders t, rows := specTableRows t }

/-- Outcome of `requests.get`: a transport-level exception
(`ConnectionError`, `Timeout`, ...) or a received response. -/
inductive FetchOutcome
  | transport (cause : String)
  | response (r : HttpResponse)

/-- The two distinguishable failure shapes of the fetch step:
`raise_for_status` raising `HTTPError` with the status code, or the
transport-level exception. -/
inductive FetchError
  | badStatus (code : Nat)
  | transport (cause : String)
deriving DecidableEq

/-- Status codes for which `requests.Response.raise_for_status` raises
`HTTPError` (4xx client errors and 5xx server errors). -/
def raiseForStatusFails (code : Nat) : Bool :=
  decide (400 ≤ code) && decide (code < 600)

/-- Embeds `scrape_website`: a transport failure propagates as such; a
response with an error status makes `raise_for_status` raise before any
extraction; otherwise the extraction body produces the document. -/
def scrape_website (url : String) (f : FetchOutcome) :
    Except FetchError ScrapedData :=
  match f with
  | FetchOutcome.transport cause => Except.error (FetchError.transport cause)
  | FetchOutcome.response r =>
    if raiseForStatusFails r.status_code then
      Except.error (FetchError.badStatus r.status_code)
    else Except.ok (extract url r)

/-- A parse tree with no extractable elements. -/
def emptySoup : Soup :=
  { title := none, h1 := [], h2 := [], h3 := [], h4 := [], h5 := [], h6 := []
    ps := [], anchors := [], imgs := [], tableElems := []
    metaDescription := none, metaKeywords := none }

def baseUrl : String := "https://example.com"

/-- A successful response wrapping a given parse tree. -/
def respOf (soup : Soup) : HttpResponse :=
  { status_code := 200, content_type := "text/html", content_length := 0
    soup := soup }

/-- A document with one table: a `tr` of two `th` cells and a `tr` of two
`td` cells. -/
def soupOneTable : Soup :=
  { emptySoup with
    tableElems :=
      [{ rows := [[{ tag := CellTag.th, text := "h1" },
                   { tag := CellTag.th, text := "h2" }],
                  [{ tag := CellTag.td, text := "d1" },
                   { tag := CellTag.td, text := "d2" }]] }] }

/-- A document with 200 paragraph elements and 150 anchors whose hrefs all
resolve to valid URLs. -/
def soupBounds : Soup :=
  { emptySoup with
    ps := List.replicate 200 "x"
    anchors := List.replicate 150 { href := "https://example.com/a", text := "t" } }

/-- A document with one external and one internal link. -/
def soupTwoLinks : Soup :=
  { emptySoup with
    anchors := [{ href := "https://other.org/x", text := "a" },
                { href := "https://example.com/y", text := "b" }] }

/-- A document with one relative link and one relative image. -/
def soupRelative : Soup :=
  { emptySoup with
    anchors := [{ href := "/x", text := "a" }]
    imgs := [{ src := "/i.png", alt := some "pic", title := none }] }

/-- A document with 101 anchors: a `mailto:` one (whose resolution fails
URL validation) followed by 100 anchors resolving to valid URLs. -/
def soupManyAnchors : Soup :=
  { emptySoup with
    anchors :=
      { href := "mailto:x", text := "m" } ::
        List.replicate 100 { href := "https://example.com/a", text := "t" } }

theorem dropWhile_head_not {α : Type} (p : α → Bool) :
    ∀ (l : List α) (c : α) (t : List α), l.dropWhile p = c :: t → p c = false := by
  intro l
  induction l with
  | nil => intro c t h; simp [List.dropWhile] at h
  | cons a as ih =>
    intro c t h
    rw [List.dropWhile_cons] at h
    split at h
    · exact ih c t h
    · rename_i hpa
      injection h with h1 _
      rw [← h1]
      simpa using hpa

theorem dropWhile_eq_self_of_head {α : Type} (p : α → Bool) (l : List α)
    (h : ∀ c, l.head? = some c → p c = false) : l.dropWhile p = l := by
  cases l with
  | nil => rfl
  | cons a as =>
    have := h a rfl
    simp [List.dropWhile_cons, this]

theorem head_collapseAux_true :
    ∀ (l : List Char) (c : Char),
      (collapseAux true l).head? = some c → isPySpace c = false := by
  intro l
  induction l with
  | nil => intro c h; simp [collapseAux] at h
  | cons a as ih =>
    intro c h
    by_cases hs : isPySpace a = true
    · rw [show collapseAux true (a :: as) = collapseAux true as from by
        simp [collapseAux, hs]] at h
      exact ih c h
    · rw [show collapseAux true (a :: as) = a :: collapseAux false as from by
        simp [collapseAux, hs]] at h
      simp only [List.head?_cons, Option.some.injEq] at h
      rw [← h]
      simpa using hs

theorem goodWs_tail {a : Char} {l : List Char} (h : GoodWs (a :: l)) : GoodWs l :=
  ⟨fun c hc hcs => h.1 c (List.mem_cons_of_mem a hc) hcs, h.2.tail⟩

theorem goodWs_collapseAux :
    ∀ (l : List Char) (b : Bool), GoodWs (collapseAux b l) := by
  intro l
  induction l with
  | nil =>
    intro b
    refine ⟨fun c hc => by simp [collapseAux] at hc, ?_⟩
    simp [collapseAux, NoWsRun]
  | cons a as ih =>
    intro b
    by_cases hs : isPySpace a = true
    · cases b with
      | true =>
        rw [show collapseAux true (a :: as) = collapseAux true as from by
          simp [collapseAux, hs]]
        exact ih true
      | false =>
        rw [show collapseAux false (a :: as) = ' ' :: collapseAux true as from by
          simp [collapseAux, hs]]
        refine ⟨?_, ?_⟩
        · intro c hc hcs
          rcases List.mem_cons.mp hc with h | h
          · exact h
          · exact (ih true).1 c h hcs
        · refine List.chain'_cons'.mpr ⟨?_, (ih true).2⟩
          intro d hd hcontra
          have := head_collapseAux_true as d (Option.mem_def.mp hd)
          rw [hcontra.2] at this
          simp at this
    · have heq : collapseAux b (a :: as) = a :: collapseAux false as := by
        cases b <;> simp [collapseAux, hs]
      rw [heq]
      refine ⟨?_, ?_⟩
      · intro c hc hcs
        rcases List.mem_cons.mp hc with h | h
        · subst h; exact absurd hcs (by simpa using hs)
        · exact (ih false).1 c h hcs
      · refine List.chain'_cons'.mpr ⟨?_, (ih false).2⟩
        intro d _ hcontra
        exact absurd hcontra.1 (by simpa using hs)

theorem collapseAux_of_goodWs :
    ∀ (l : List Char), GoodWs l →
      collapseAux false l = l ∧
      ((∀ c, l.head? = some c → isPySpace c = false) →
        collapseAux true l = l) := by
  intro l
  induction l with
  | nil => exact fun _ => ⟨rfl, fun _ => rfl⟩
  | cons a as ih =>
    intro h
    have iha := ih (goodWs_tail h)
    by_cases hs : isPySpace a = true
    · have ha : a = ' ' := h.1 a (List.mem_cons_self a as) hs
      have hhead : ∀ c, as.head? = some c → isPySpace c = false := by
        intro c hc
        by_contra hcc
        exact (List.chain'_cons'.mp h.2).1 c (Option.mem_def.mpr hc)
          ⟨hs, by simpa using hcc⟩
      refine ⟨?_, ?_⟩
      · rw [show collapseAux false (a :: as) = ' ' :: collapseAux true as from by
          simp [collapseAux, hs]]
        rw [iha.2 hhead, ha]
      · intro hh
        exact absurd hs (by simp [hh a rfl])
    · refine ⟨?_, ?_⟩
      · rw [show collapseAux false (a :: as) = a :: collapseAux false as from by
          simp [collapseAux, hs]]
        rw [iha.1]
      · intro _
        rw [show collapseAux true (a :: as) = a :: collapseAux false as from by
          simp [collapseAux, hs]]
        rw [iha.1]

theorem goodWs_dropWhile (p : Char → Bool) :
    ∀ (l : List Char), GoodWs l → GoodWs (l.dropWhile p) := by
  intro l
  induction l with
  | nil => intro h; simpa [List.dropWhile] using h
  | cons a as ih =>
    intro h
    rw [List.dropWhile_cons]
    split
    · exact ih (goodWs_tail h)
    · exact h

theorem goodWs_reverse (l : List Char) (h : GoodWs l) : GoodWs l.reverse := by
  refine ⟨fun c hc hcs => h.1 c (List.mem_reverse.mp hc) hcs, ?_⟩
  unfold NoWsRun
  rw [List.chain'_reverse]
  exact h.2.imp (fun a b hab hc => hab ⟨hc.2, hc.1⟩)

theorem goodWs_pyStrip (l : List Char) (h : GoodWs l) : GoodWs (pyStrip l) := by
  unfold pyStrip dropTrailingWs
  exact goodWs_reverse _ (goodWs_dropWhile _ _ (goodWs_reverse _ (goodWs_dropWhile _ _ h)))

theorem pyStrip_head_not (l : List Char) (c : Char) (t : List Char)
    (h : pyStrip l = c :: t) : isPySpace c = false := by
  have hx := List.takeWhile_append_dropWhile (p := isPySpace)
    (l := (l.dropWhile isPySpace).reverse)
  have hm : l.dropWhile isPySpace =
      ((l.dropWhile isPySpace).reverse.dropWhile isPySpace).reverse ++
      ((l.dropWhile isPySpace).reverse.takeWhile isPySpace).reverse := by
    conv_lhs => rw [← List.reverse_reverse (l.dropWhile isPySpace), ← hx]
    rw [List.reverse_append]
  unfold pyStrip dropTrailingWs at h
  rw [h] at hm
  exact dropWhile_head_not isPySpace l c _ (by simpa using hm)

theorem pyStrip_getLast_not (l : List Char) (c : Char)
    (h : (pyStrip l).getLast? = some c) : isPySpace c = false := by
  unfold pyStrip dropTrailingWs at h
  rw [List.getLast?_reverse] at h
  cases hd : (l.dropWhile isPySpace).reverse.dropWhile isPySpace with
  | nil => rw [hd] at h; simp at h
  | cons x xs =>
    rw [hd] at h
    simp only [List.head?_cons, Option.some.injEq] at h
    rw [← h]
    exact dropWhile_head_not isPySpace _ x xs hd

theorem pyStrip_eq_self (l : List Char)
    (hh : ∀ c, l.head? = some c → isPySpace c = false)
    (hl : ∀ c, l.getLast? = some c → isPySpace c = false) : pyStrip l = l := by
  unfold pyStrip dropTrailingWs
  rw [dropWhile_eq_self_of_head isPySpace l hh]
  rw [dropWhile_eq_self_of_head isPySpace l.reverse
    (fun c hc => hl c (by rwa [List.head?_reverse] at hc))]
  exact List.reverse_reverse l

theorem clean_text_clean (s : String) :
    clean_text (clean_text s) = clean_text s := by
  by_cases hs : s = ""
  · subst hs; rfl
  · have h1 : clean_text s = ⟨pyStrip (collapseWs s.data)⟩ := by
      rw [clean_text, if_neg hs]
    by_cases ho : pyStrip (collapseWs s.data) = []
    · rw [h1, ho]
      decide
    · rw [h1]
      have hne : (⟨pyStrip (collapseWs s.data)⟩ : String) ≠ "" := by
        intro hcc
        apply ho
        have hdata : (⟨pyStrip (collapseWs s.data)⟩ : String).data =
            ("" : String).data := by rw [hcc]
        simpa using hdata
      rw [clean_text, if_neg hne]
      have hgood : GoodWs (pyStrip (collapseWs s.data)) :=
        goodWs_pyStrip _ (goodWs_collapseAux s.data false)
      have hcw : collapseWs (pyStrip (collapseWs s.data)) =
          pyStrip (collapseWs s.data) :=
        (collapseAux_of_goodWs _ hgood).1
      have hps : pyStrip (pyStrip (collapseWs s.data)) =
          pyStrip (collapseWs s.data) := by
        apply pyStrip_eq_self
        · intro c hc2
          cases hd : pyStrip (collapseWs s.data) with
          | nil => exact absurd hd ho
          | cons x xs =>
            rw [hd] at hc2
            simp only [List.head?_cons, Option.some.injEq] at hc2
            rw [← hc2]
            exact pyStrip_head_not _ x xs hd
        · intro c hc2
          exact pyStrip_getLast_not _ c hc2
      show (⟨pyStrip (collapseWs (pyStrip (collapseWs s.data)))⟩ : String) = _
      rw [hcw, hps]

theorem length_filterMap_of_isSome {α β : Type} (f : α → Option β) :
    ∀ (l : List α), (∀ a ∈ l, (f a).isSome = true) →
      (l.filterMap f).length = l.length := by
  intro l
  induction l with
  | nil => intro _; rfl
  | cons a as ih =>
    intro h
    have ha := h a (List.mem_cons_self a as)
    cases hfa : f a with
    | none => rw [hfa] at ha; simp at ha
    | some b =>
      rw [List.filterMap_cons, hfa]
      simp only [List.length_cons]
      rw [ih (fun x hx => h x (List.mem_cons_of_mem a hx))]

theorem filterMap_ite_eq_map_filter {α β : Type} (p : α → Bool) (g : α → β) :
    ∀ l : List α,
      l.filterMap (fun a => if p a then some (g a) else none) =
        (l.filter p).map g := by
  intro l
  induction l with
  | nil => rfl
  | cons a as ih =>
    by_cases hp : p a = true
    · simp [List.filterMap_cons, List.filter_cons, hp, ih]
    · simp [List.filterMap_cons, List.filter_cons, hp, ih]

theorem flatMap_filter_comm {α : Type} (p : α → Bool) :
    ∀ (ll : List (List α)),
      ll.flatMap (fun row => row.filter p) = (ll.flatMap id).filter p := by
  intro ll
  induction ll with
  | nil => rfl
  | cons r rs ih => simp [List.flatMap_cons, List.filter_append, ih]

theorem mem_links_entry (url : String) (r : HttpResponse) (e : LinkEntry)
    (he : e ∈ (extract url r).links) :
    ∃ a ∈ r.soup.anchors.take 100,
      is_valid_url (urljoin url a.href) = true ∧ e = mkLinkEntry url a := by
  have he2 : e ∈ (r.soup.anchors.take 100).filterMap (extractLink url) := he
  rcases List.mem_filterMap.mp he2 with ⟨a, ha, hfa⟩
  refine ⟨a, ha, ?_⟩
  unfold extractLink at hfa
  split at hfa
  · rename_i hval
    injection hfa with hfa
    exact ⟨hval, hfa.symm⟩
  · exact Option.noConfusion hfa

theorem mem_images_entry (url : String) (r : HttpResponse) (e : ImageEntry)
    (he : e ∈ (extract url r).images) :
    ∃ im ∈ r.soup.imgs.take 50,
      is_valid_url (urljoin url im.src) = true ∧ e = mkImageEntry url im := by
  have he2 : e ∈ (r.soup.imgs.take 50).filterMap (extractImage url) := he
  rcases List.mem_filterMap.mp he2 with ⟨im, him, hfa⟩
  refine ⟨im, him, ?_⟩
  unfold extractImage at hfa
  split at hfa
  · rename_i hval
    injection hfa with hfa
    exact ⟨hval, hfa.symm⟩
  · exact Option.noConfusion hfa

/-- Claim C7: text normalization is idempotent — for every string `s`,
`clean_text (clean_text s) = clean_text s` — and on the concrete instance,
`clean_text "  a\n\n b  " = "a b"`. -/
theorem claim_C7_clean_text_idempotent :
    (∀ s : String, clean_text (clean_text s) = clean_text s) ∧
    clean_text "  a\n\n b  " = "a b" :=
  ⟨clean_text_clean, by decide⟩

/-- Claim C2: a response whose status is a failure status (the 4xx/5xx
range on which `raise_for_status` raises) makes the pipeline return
`FetchError.badStatus` with that code and produce no document, while a
transport-level failure returns `FetchError.transport`; the two failure
shapes are distinguishable. -/
theorem claim_C2_bad_status (url : String) (r : HttpResponse) (cause : String) :
    (400 ≤ r.status_code → r.status_code < 600 →
      scrape_website url (FetchOutcome.response r) =
        Except.error (FetchError.badStatus r.status_code) ∧
      ∀ d : ScrapedData,
        scrape_website url (FetchOutcome.response r) ≠ Except.ok d) ∧
    scrape_website url (FetchOutcome.transport cause) =
      Except.error (FetchError.transport cause) ∧
    (∀ (code : Nat) (c : String),
      FetchError.badStatus code ≠ FetchError.transport c) := by
  refine ⟨?_, rfl, ?_⟩
  · intro h1 h2
    have hb : raiseForStatusFails r.status_code = true := by
      simp [raiseForStatusFails, h1, h2]
    refine ⟨by simp [scrape_website, hb], ?_⟩
    intro d hd
    simp [scrape_website, hb] at hd
  · intro code c h
    exact FetchError.noConfusion h

/-- Witness for C2: a concrete 404 response yields `badStatus 404`. -/
theorem claim_C2_bad_status_witness :
    scrape_website baseUrl
        (FetchOutcome.response
          { status_code := 404, content_type := "text/html",
            content_length := 0, soup := emptySoup }) =
      Except.error (FetchError.badStatus 404) :=
  ((claim_C2_bad_status baseUrl
      { status_code := 404, content_type := "text/html", content_length := 0,
        soup := emptySoup } "dns failure").1 (by decide) (by decide)).1

/-- Claim C3: extraction truncates at the fixed limits — `paragraphs` has
`min 50` of the paragraph count, `links` never exceeds 100 entries, and
when every anchor's resolved URL is valid, `links` has `min 100` of the
anchor count (so 200 paragraphs give exactly 50 entries and 150 valid
anchors give exactly 100). -/
theorem claim_C3_bounds (url : String) (r : HttpResponse) :
    (extract url r).paragraphs.length = min 50 r.soup.ps.length ∧
    (extract url r).links.length ≤ 100 ∧
    ((∀ a ∈ r.soup.anchors, is_valid_url (urljoin url a.href) = true) →
      (extract url r).links.length = min 100 r.soup.anchors.length) := by
  refine ⟨?_, ?_, ?_⟩
  · show ((r.soup.ps.take 50).map clean_text).length = _
    rw [List.length_map, List.length_take]
  · show ((r.soup.anchors.take 100).filterMap (extractLink url)).length ≤ 100
    calc ((r.soup.anchors.take 100).filterMap (extractLink url)).length
        ≤ (r.soup.anchors.take 100).length := List.length_filterMap_le _ _
      _ = min 100 r.soup.anchors.length := List.length_take _ _
      _ ≤ 100 := min_le_left _ _
  · intro hv
    show ((r.soup.anchors.take 100).filterMap (extractLink url)).length = _
    rw [length_filterMap_of_isSome (extractLink url) _ ?_, List.length_take]
    intro a ha
    have hval := hv a (List.take_subset 100 r.soup.anchors ha)
    simp [extractLink, hval]

/-- Witness for C3: 200 paragraphs yield exactly 50 entries, 150 anchors
with valid resolved URLs yield exactly 100 entries. -/
theorem claim_C3_bounds_witness :
    (extract baseUrl (respOf soupBounds)).paragraphs.length = 50 ∧
    (extract baseUrl (respOf soupBounds)).links.length = 100 := by
  have h := claim_C3_bounds baseUrl (respOf soupBounds)
  have hv : ∀ a ∈ (respOf soupBounds).soup.anchors,
      is_valid_url (urljoin baseUrl a.href) = true := by
    intro a ha
    have ha2 : a ∈ List.replicate 150
        ({ href := "https://example.com/a", text := "t" } : Anchor) := ha
    rw [List.eq_of_mem_replicate ha2]
    decide
  refine ⟨?_, ?_⟩
  · rw [h.1]
    have hlen : (respOf soupBounds).soup.ps.length = 200 := by
      show (List.replicate 200 "x").length = 200
      rw [List.length_replicate]
    rw [hlen]
    decide
  · rw [h.2.2 hv]
    have hlen : (respOf soupBounds).soup.anchors.length = 150 := by
      show (List.replicate 150
        ({ href := "https://example.com/a", text := "t" } : Anchor)).length = 150
      rw [List.length_replicate]
    rw [hlen]
    decide

/-- Claim C4: `is_valid_url` returns true iff parsing yields a result with
both a non-empty scheme and a non-empty netloc; it is false on
`"not a url"` and `"//onlypath"`, and total by construction. -/
theorem claim_C4_is_valid_url :
    (∀ u : String, is_valid_url u = true ↔
      ∃ res : SplitResult, urlsplitE u "" = Except.ok res ∧
        res.scheme ≠ "" ∧ res.netloc ≠ "") ∧
    is_valid_url "not a url" = false ∧
    is_valid_url "//onlypath" = false := by
  refine ⟨?_, by decide, by decide⟩
  intro u
  constructor
  · intro hb
    unfold is_valid_url at hb
    revert hb
    cases h : urlsplitE u "" with
    | error e => intro hb; simp at hb
    | ok res =>
      intro hb
      simp only [Bool.and_eq_true, Bool.not_eq_true'] at hb
      refine ⟨res, rfl, ?_, ?_⟩
      · simpa using hb.1
      · simpa using hb.2
  · rintro ⟨res, hres, h1, h2⟩
    unfold is_valid_url
    rw [hres]
    simp [h1, h2]

/-- Claim C9: the statistics block is exactly the counts of the assembled
sequences; the aggregator does no further filtering. -/
theorem claim_C9_statistics_counts (url : String) (r : HttpResponse) :
    (extract url r).statistics.total_headings =
        (extract url r).headings.h1.length + (extract url r).headings.h2.length +
        (extract url r).headings.h3.length + (extract url r).headings.h4.length +
        (extract url r).headings.h5.length + (extract url r).headings.h6.length ∧
    (extract url r).statistics.total_paragraphs =
        (extract url r).paragraphs.length ∧
    (extract url r).statistics.total_links = (extract url r).links.length ∧
    (extract url r).statistics.total_images = (extract url r).images.length ∧
    (extract url r).statistics.total_tables = (extract url r).tables.length ∧
    (extract url r).statistics.external_links =
        ((extract url r).links.filter (fun l => l.is_external)).length :=
  ⟨rfl, rfl, rfl, rfl, rfl, rfl⟩

theorem tableHeaders_eq_spec (t : TableElem) :
    tableHeaders t = specTableHeaders t := by
  unfold tableHeaders specTableHeaders
  rw [flatMap_filter_comm]

theorem tableData_eq_spec (t : TableElem) : tableData t = specTableRows t := rfl

theorem extractTable_eq_tableSpec (t : TableElem) :
    extractTable t = tableSpec t := by
  unfold extractTable tableSpec
  by_cases hd : specTableRows t = []
  · rw [if_neg (fun hcc => hcc (tableData_eq_spec t ▸ hd)), if_pos hd]
  · rw [if_pos (fun hcc => hd (tableData_eq_spec t ▸ hcc)), if_neg hd,
      tableHeaders_eq_spec, tableData_eq_spec]

/-- Claim C1 counterexample: for the table with one `tr` of two `th` cells
and one `tr` of two `td` cells, the extracted entry's `rows` contains TWO
rows — the `th` row is collected again by the row loop — so the entry does
not have exactly one data row. -/
theorem claim_C1_tables_counterexample :
    (extract baseUrl (respOf soupOneTable)).tables =
      [{ headers := ["h1", "h2"],
         rows := [["h1", "h2"], ["d1", "d2"]] }] ∧
    ¬((extract baseUrl (respOf soupOneTable)).tables.map (fun e => e.rows) =
      [[["d1", "d2"]]]) := by
  constructor
  · decide
  · decide

/-- Claim C1 (amended): each of the first 10 tables yields an entry with
headers the normalized texts of all its `th` cells in document order and
rows the per-`tr` sequences of normalized `td`/`th` cell texts with
zero-cell rows dropped (so the th+td instance yields `headers = [h1, h2]`
and TWO rows — the `th` row followed by the `td` row); a table whose every
row has zero cells contributes no entry. -/
theorem claim_C1_tables (url : String) (r : HttpResponse)
    (h1 h2 d1 d2 : String) :
    (extract url r).tables = (r.soup.tableElems.take 10).filterMap tableSpec ∧
    extractTable { rows := [[{ tag := CellTag.th, text := h1 },
                             { tag := CellTag.th, text := h2 }],
                            [{ tag := CellTag.td, text := d1 },
                             { tag := CellTag.td, text := d2 }]] } =
      some { headers := [clean_text h1, clean_text h2],
             rows := [[clean_text h1, clean_text h2],
                      [clean_text d1, clean_text d2]] } ∧
    extractTable { rows := [[], [], []] } = none := by
  refine ⟨?_, ?_, by decide⟩
  · show (r.soup.tableElems.take 10).filterMap extractTable = _
    have hfn : extractTable = tableSpec := funext extractTable_eq_tableSpec
    rw [hfn]
  · simp [extractTable, tableHeaders, tableData]

/-- Claim C5: `is_external` of every link entry is true iff the resolved
URL's netloc differs from the source URL's netloc; concretely, from base
`https://example.com`, a link to `https://other.org/x` is external and a
link to `https://example.com/y` is not. -/
theorem claim_C5_is_external :
    (∀ (url : String) (r : HttpResponse) (e : LinkEntry),
      e ∈ (extract url r).links →
        (e.is_external = true ↔ netlocOf e.url ≠ netlocOf url)) ∧
    (extract baseUrl (respOf soupTwoLinks)).links.map
        (fun e => (e.url, e.is_external)) =
      [("https://other.org/x", true), ("https://example.com/y", false)] := by
  constructor
  · intro url r e he
    rcases mem_links_entry url r e he with ⟨a, _, _, rfl⟩
    show (netlocOf (urljoin url a.href) != netlocOf url) = true ↔ _
    exact bne_iff_ne
  · decide

/-- Witness for C5: the concrete external entry is a member of the output
and its flag matches the netloc comparison. -/
theorem claim_C5_is_external_witness :
    ({ text := "a", url := "https://other.org/x", is_external := true } :
        LinkEntry) ∈ (extract baseUrl (respOf soupTwoLinks)).links ∧
    (true = true ↔ netlocOf "https://other.org/x" ≠ netlocOf baseUrl) :=
  ⟨by decide,
   claim_C5_is_external.1 baseUrl (respOf soupTwoLinks)
     { text := "a", url := "https://other.org/x", is_external := true }
     (by decide)⟩

/-- Claim C6: every URL in `links` and every src in `images` passed URL
validation; anchors and images whose resolved URL fails validation
produce no entry. -/
theorem claim_C6_valid_urls (url : String) (r : HttpResponse) :
    (∀ e ∈ (extract url r).links, is_valid_url e.url = true) ∧
    (∀ im ∈ (extract url r).images, is_valid_url im.src = true) ∧
    (∀ a : Anchor, is_valid_url (urljoin url a.href) = false →
      extractLink url a = none) ∧
    (∀ im : ImgElem, is_valid_url (urljoin url im.src) = false →
      extractImage url im = none) := by
  refine ⟨?_, ?_, ?_, ?_⟩
  · intro e he
    rcases mem_links_entry url r e he with ⟨a, _, hval, rfl⟩
    exact hval
  · intro e he
    rcases mem_images_entry url r e he with ⟨im, _, hval, rfl⟩
    exact hval
  · intro a hv
    unfold extractLink
    simp [hv]
  · intro im hv
    unfold extractImage
    simp [hv]

/-- Witness for C6: concrete link and image entries of a produced document
pass validation. -/
theorem claim_C6_valid_urls_witness :
    (({ text := "a", url := "https://example.com/x", is_external := false } :
        LinkEntry) ∈ (extract baseUrl (respOf soupRelative)).links ∧
      is_valid_url "https://example.com/x" = true) ∧
    (({ src := "https://example.com/i.png", alt := "pic", title := "" } :
        ImageEntry) ∈ (extract baseUrl (respOf soupRelative)).images ∧
      is_valid_url "https://example.com/i.png" = true) :=
  ⟨⟨by decide,
    (claim_C6_valid_urls baseUrl (respOf soupRelative)).1
      { text := "a", url := "https://example.com/x", is_external := false }
      (by decide)⟩,
   ⟨by decide,
    (claim_C6_valid_urls baseUrl (respOf soupRelative)).2.1
      { src := "https://example.com/i.png", alt := "pic", title := "" }
      (by decide)⟩⟩

/-- Claim C8: metadata fallbacks — no title element gives the literal
`"No Title"`, missing meta description/keywords give `""`, and the three
text fields are whitespace-normalized (fixed points of `clean_text`). -/
theorem claim_C8_metadata_fallbacks (url : String) (r : HttpResponse) :
    (r.soup.title = none → (extract url r).metadata.title = "No Title") ∧
    (r.soup.metaDescription = none →
      (extract url r).metadata.description = "") ∧
    (r.soup.metaKeywords = none → (extract url r).metadata.keywords = "") ∧
    clean_text (extract url r).metadata.title =
      (extract url r).metadata.title ∧
    clean_text (extract url r).metadata.description =
      (extract url r).metadata.description ∧
    clean_text (extract url r).metadata.keywords =
      (extract url r).metadata.keywords := by
  refine ⟨?_, ?_, ?_, ?_, ?_, ?_⟩
  · intro h
    show clean_text (match r.soup.title with
      | some t => t | none => "No Title") = "No Title"
    rw [h]
    decide
  · intro h
    show clean_text (match r.soup.metaDescription with
      | some c => c.getD "" | none => "") = ""
    rw [h]
    decide
  · intro h
    show clean_text (match r.soup.metaKeywords with
      | some c => c.getD "" | none => "") = ""
    rw [h]
    decide
  · exact clean_text_clean _
  · exact clean_text_clean _
  · exact clean_text_clean _

/-- Witness for C8: the empty document gets the placeholder title and
empty description/keywords. -/
theorem claim_C8_metadata_fallbacks_witness :
    (extract baseUrl (respOf emptySoup)).metadata.title = "No Title" ∧
    (extract baseUrl (respOf emptySoup)).metadata.description = "" ∧
    (extract baseUrl (respOf emptySoup)).metadata.keywords = "" :=
  ⟨(claim_C8_metadata_fallbacks baseUrl (respOf emptySoup)).1 rfl,
   (claim_C8_metadata_fallbacks baseUrl (respOf emptySoup)).2.1 rfl,
   (claim_C8_metadata_fallbacks baseUrl (respOf emptySoup)).2.2.1 rfl⟩

/-- Claim C10: link extraction truncates to the first 100 href-bearing
anchors BEFORE dropping invalid resolutions, so the output never depends
on anchors beyond the first 100, and a document with an invalid href among
the first 100 and more than 100 valid-resolving anchors in total yields
strictly fewer than 100 entries (here 99). -/
theorem claim_C10_truncate_before_filter :
    (∀ (url : String) (r : HttpResponse),
      (extract url r).links =
        ((r.soup.anchors.take 100).filter
            (fun a => is_valid_url (urljoin url a.href))).map
          (mkLinkEntry url)) ∧
    (∀ (url : String) (r : HttpResponse),
      (extract url r).links =
        (extract url
          { r with soup := { r.soup with
              anchors := r.soup.anchors.take 100 } }).links) ∧
    (soupManyAnchors.anchors.filter
        (fun a => is_valid_url (urljoin baseUrl a.href))).length = 100 ∧
    (extract baseUrl (respOf soupManyAnchors)).links.length = 99 := by
  have hgen : ∀ (url : String) (r : HttpResponse),
      (extract url r).links =
        ((r.soup.anchors.take 100).filter
            (fun a => is_valid_url (urljoin url a.href))).map
          (mkLinkEntry url) := by
    intro url r
    show (r.soup.anchors.take 100).filterMap (extractLink url) = _
    exact filterMap_ite_eq_map_filter _ _ _
  refine ⟨hgen, ?_, by decide, by decide⟩
  intro url r
  rw [hgen, hgen]
  simp [List.take_take]

end Scraper
